import Mathlib

/-!
Verification development for the play-cpp-sdk WalletConnect core:
the crypto envelope in wallet-connect/src/v2/crypto.rs and the
session / transaction pipeline in extra-cpp-bindings/src/walletconnect.rs.

Bytes are modelled as natural numbers (a well-formed byte is < 256),
byte buffers as lists of naturals, and Rust u64 / U256 arithmetic as
natural-number arithmetic with explicit bounds.  Rust panics (out of
bounds slicing, expect on Err) are modelled by an explicit panic value.
-/

namespace PlayCpp

/-- A buffer is a list of byte values. -/
abbrev Bytes := List Nat

/-- All elements of the buffer are genuine bytes (< 256). -/
def IsBytes (l : Bytes) : Prop := ∀ b ∈ l, b < 256

instance : DecidablePred IsBytes := fun l =>
  List.decidableBAll (fun b => b < 256) l

/-- Outcome of running a piece of Rust code that may panic:
either a value or a crash (panic / abort). -/
inductive PanicOr (α : Type) where
  | panic : PanicOr α
  | val : α → PanicOr α
deriving DecidableEq, Repr

/-- Bitwise NOT on a Rust u64 value (the unary `!` operator of Rust on
unsigned integers), modelled as XOR with the all-ones 64-bit word. -/
def notU64 (x : Nat) : Nat := 18446744073709551615 ^^^ x

/- ## Hexadecimal (the hex module used by crypto.rs; modelled from the
spec: hex decoding of the responder public key and lowercase hex
encoding of the topic hash). -/

/-- Value of one hexadecimal digit character, none for a non-hex char. -/
def hexVal (c : Char) : Option Nat :=
  if 48 ≤ c.toNat ∧ c.toNat ≤ 57 then some (c.toNat - 48)
  else if 97 ≤ c.toNat ∧ c.toNat ≤ 102 then some (c.toNat - 87)
  else if 65 ≤ c.toNat ∧ c.toNat ≤ 70 then some (c.toNat - 55)
  else none

/-- Modelled from the spec: hex decoding (two hex digits per byte;
odd length or an invalid digit is a decode failure).  Stands for the
hex::decode call in derive_symkey_topic, whose module is outside src/. -/
def hexDecodeList : List Char → Option Bytes
  | [] => some []
  | c1 :: c2 :: rest =>
    match hexVal c1, hexVal c2, hexDecodeList rest with
    | some h, some lo, some r => some ((h * 16 + lo) :: r)
    | _, _, _ => none
  | _ => none

def hexDecode (s : String) : Option Bytes := hexDecodeList s.toList

/-- Lowercase hex digit for a value < 16. -/
def hexDigitChar (n : Nat) : Char :=
  if n < 10 then Char.ofNat (48 + n) else Char.ofNat (87 + n)

/-- Modelled from the spec: lowercase hex encoding of a byte buffer
(the hex::encode call in derive_symkey_topic). -/
def hexEncode (l : Bytes) : String :=
  String.mk (l.flatMap (fun b => [hexDigitChar (b / 16), hexDigitChar (b % 16)]))

/- ## Standard padded base64 (the base64 STANDARD engine used by
crypto.rs; modelled from the spec: standard alphabet, padded). -/

/-- Character of the standard base64 alphabet for a sextet < 64. -/
def sextetChar (s : Nat) : Char :=
  if s < 26 then Char.ofNat (65 + s)
  else if s < 52 then Char.ofNat (97 + (s - 26))
  else if s < 62 then Char.ofNat (48 + (s - 52))
  else if s = 62 then '+'
  else '/'

/-- Inverse of the standard base64 alphabet. -/
def charSextet (c : Char) : Option Nat :=
  if 65 ≤ c.toNat ∧ c.toNat ≤ 90 then some (c.toNat - 65)
  else if 97 ≤ c.toNat ∧ c.toNat ≤ 122 then some (c.toNat - 97 + 26)
  else if 48 ≤ c.toNat ∧ c.toNat ≤ 57 then some (c.toNat - 48 + 52)
  else if c = '+' then some 62
  else if c = '/' then some 63
  else none

/-- Standard padded base64 encoding of a byte buffer, three bytes at a
time, padding the final one- or two-byte group with '='. -/
def base64EncodeBytes : Bytes → List Char
  | [] => []
  | [b1] => [sextetChar (b1 / 4), sextetChar (b1 % 4 * 16), '=', '=']
  | [b1, b2] =>
    [sextetChar (b1 / 4), sextetChar (b1 % 4 * 16 + b2 / 16),
     sextetChar (b2 % 16 * 4), '=']
  | b1 :: b2 :: b3 :: rest =>
    sextetChar (b1 / 4) :: sextetChar (b1 % 4 * 16 + b2 / 16) ::
    sextetChar (b2 % 16 * 4 + b3 / 64) :: sextetChar (b3 % 64) ::
    base64EncodeBytes rest

def base64Encode (l : Bytes) : String := String.mk (base64EncodeBytes l)

/-- Decoding of a final base64 quantum, handling '=' padding and
rejecting non-canonical trailing bits. -/
def base64DecodeLast (c1 c2 c3 c4 : Char) : Option Bytes :=
  if c4 = '=' then
    if c3 = '=' then
      match charSextet c1, charSextet c2 with
      | some s1, some s2 =>
        if s2 % 16 = 0 then some [s1 * 4 + s2 / 16] else none
      | _, _ => none
    else
      match charSextet c1, charSextet c2, charSextet c3 with
      | some s1, some s2, some s3 =>
        if s3 % 4 = 0 then
          some [s1 * 4 + s2 / 16, s2 % 16 * 16 + s3 / 4]
        else none
      | _, _, _ => none
  else
    match charSextet c1, charSextet c2, charSextet c3, charSextet c4 with
    | some s1, some s2, some s3, some s4 =>
      some [s1 * 4 + s2 / 16, s2 % 16 * 16 + s3 / 4, s3 % 4 * 64 + s4]
    | _, _, _, _ => none

/-- Standard padded base64 decoding: input length must be a multiple of
four, '=' may appear only in the final quantum. -/
def base64DecodeChars : List Char → Option Bytes
  | [] => some []
  | c1 :: c2 :: c3 :: c4 :: rest =>
    match rest with
    | [] => base64DecodeLast c1 c2 c3 c4
    | _ =>
      match charSextet c1, charSextet c2, charSextet c3, charSextet c4,
            base64DecodeChars rest with
      | some s1, some s2, some s3, some s4, some r =>
        some ((s1 * 4 + s2 / 16) :: (s2 % 16 * 16 + s3 / 4) :: (s3 % 4 * 64 + s4) :: r)
      | _, _, _, _, _ => none
  | _ => none

def base64Decode (s : String) : Option Bytes := base64DecodeChars s.toList

/- ## U256 decimal parsing (uint crate from_dec_str, used by
walletconnect.rs for nonce / gas fields; modelled from the spec: a
non-empty non-decimal numeric string is a malformed-input error, the
empty string parses to zero). -/

/-- Accumulating loop of from_dec_str: one decimal digit at a time,
failing on a non-digit character or on overflow past 2^256. -/
def fromDecDigits : Nat → List Char → Option Nat
  | acc, [] => some acc
  | acc, c :: rest =>
    if 48 ≤ c.toNat ∧ c.toNat ≤ 57 then
      let acc' := acc * 10 + (c.toNat - 48)
      if acc' < 2 ^ 256 then fromDecDigits acc' rest else none
    else none

/-- U256::from_dec_str: parses a decimal string into a 256-bit value;
the empty string yields 0. -/
def fromDecStr (s : String) : Option Nat := fromDecDigits 0 s.toList

/- ## ChaCha20-Poly1305 (RFC 8439), the AEAD used by crypto.rs.
Modelled from the spec: the chacha20poly1305 crate is an external
dependency; the spec fixes the algorithm (ChaCha20-Poly1305, 12-byte
nonce, no associated data, 16-byte tag embedded in the ciphertext). -/

/-- Truncation to a 32-bit word. -/
def w32 (n : Nat) : Nat := n % 4294967296

/-- Rotation of a 32-bit word to the left by n. -/
def rotl32 (x n : Nat) : Nat := w32 (x <<< n) ||| (x >>> (32 - n))

/-- The ChaCha quarter round. -/
def qround : Nat × Nat × Nat × Nat → Nat × Nat × Nat × Nat
  | (a, b, c, d) =>
    let a1 := w32 (a + b); let d1 := rotl32 (d ^^^ a1) 16
    let c1 := w32 (c + d1); let b1 := rotl32 (b ^^^ c1) 12
    let a2 := w32 (a1 + b1); let d2 := rotl32 (d1 ^^^ a2) 8
    let c2 := w32 (c1 + d2); let b2 := rotl32 (b1 ^^^ c2) 7
    (a2, b2, c2, d2)

/-- Quarter round applied in place at four positions of the state. -/
def applyQR (s : List Nat) (i j k l : Nat) : List Nat :=
  match qround (s.getD i 0, s.getD j 0, s.getD k 0, s.getD l 0) with
  | (a, b, c, d) => (((s.set i a).set j b).set k c).set l d

/-- One ChaCha double round: four column rounds then four diagonal rounds. -/
def doubleRound (s : List Nat) : List Nat :=
  let s1 := applyQR (applyQR (applyQR (applyQR s 0 4 8 12) 1 5 9 13) 2 6 10 14) 3 7 11 15
  applyQR (applyQR (applyQR (applyQR s1 0 5 10 15) 1 6 11 12) 2 7 8 13) 3 4 9 14

def chachaRounds : Nat → List Nat → List Nat
  | 0, s => s
  | n + 1, s => chachaRounds n (doubleRound s)

/-- Little-endian 32-bit words from a byte buffer, four bytes at a time. -/
def bytesToWordsLE : Bytes → List Nat
  | b0 :: b1 :: b2 :: b3 :: rest =>
    (b0 + b1 * 256 + b2 * 65536 + b3 * 16777216) :: bytesToWordsLE rest
  | _ => []

/-- Little-endian serialization of a 32-bit word. -/
def wordLE4 (w : Nat) : Bytes := [w % 256, w / 256 % 256, w / 65536 % 256, w / 16777216 % 256]

/-- Initial ChaCha20 state: constants, 8 key words, counter, 3 nonce words. -/
def chachaState0 (key nonce : Bytes) (counter : Nat) : List Nat :=
  [1634760805, 857760878, 2036477234, 1797285236] ++
    bytesToWordsLE key ++ (w32 counter :: bytesToWordsLE nonce)

/-- The ChaCha20 block function: 64 bytes of keystream for one counter. -/
def chachaBlock (key nonce : Bytes) (counter : Nat) : Bytes :=
  let s0 := chachaState0 key nonce counter
  (List.zipWith (fun a b => w32 (a + b)) (chachaRounds 10 s0) s0).flatMap wordLE4

/-- Concatenation of n ChaCha20 blocks from a starting counter. -/
def chachaBlocksFrom (key nonce : Bytes) : Nat → Nat → Bytes
  | _, 0 => []
  | counter, n + 1 => chachaBlock key nonce counter ++ chachaBlocksFrom key nonce (counter + 1) n

/-- The first n ChaCha20 keystream bytes, with the block counter
starting at 1 as in the RFC 8439 AEAD construction. -/
def chachaKeystream (key nonce : Bytes) (n : Nat) : Bytes :=
  (chachaBlocksFrom key nonce 1 (n / 64 + 1)).take n

/-- Little-endian value of a byte buffer. -/
def leNat : Bytes → Nat
  | [] => 0
  | b :: rest => b + 256 * leNat rest

/-- k-byte little-endian serialization of a natural number. -/
def natToLE : Nat → Nat → Bytes
  | 0, _ => []
  | k + 1, n => n % 256 :: natToLE k (n / 256)

/-- Clamping of the Poly1305 r value. -/
def polyClamp (r : Nat) : Nat := r &&& 0x0ffffffc0ffffffc0ffffffc0fffffff

/-- Splitting of a message into Poly1305 blocks of at most 16 bytes. -/
def chunks16 : Bytes → List Bytes
  | [] => []
  | b0 :: b1 :: b2 :: b3 :: b4 :: b5 :: b6 :: b7 ::
    b8 :: b9 :: b10 :: b11 :: b12 :: b13 :: b14 :: b15 :: rest =>
    [b0, b1, b2, b3, b4, b5, b6, b7, b8, b9, b10, b11, b12, b13, b14, b15] :: chunks16 rest
  | l => [l]

/-- The Poly1305 one-time authenticator: 16-byte tag from a 32-byte key. -/
def poly1305Mac (key msg : Bytes) : Bytes :=
  let r := polyClamp (leNat (key.take 16))
  let s := leNat (key.drop 16)
  let acc := (chunks16 msg).foldl
    (fun acc c => (acc + leNat c + 2 ^ (8 * c.length)) * r % (2 ^ 130 - 5)) 0
  natToLE 16 ((acc + s) % 2 ^ 128)

/-- Zero padding of a buffer up to a multiple of 16 bytes. -/
def pad16 (l : Bytes) : Bytes := List.replicate ((16 - l.length % 16) % 16) 0

/-- The Poly1305 input of the RFC 8439 AEAD with empty associated data:
ciphertext, its padding, and the two 8-byte little-endian lengths. -/
def macData (ct : Bytes) : Bytes := ct ++ pad16 ct ++ natToLE 8 0 ++ natToLE 8 ct.length

/-- The Poly1305 key: the first 32 bytes of ChaCha20 block zero. -/
def polyKeyGen (key nonce : Bytes) : Bytes := (chachaBlock key nonce 0).take 32

/-- ChaCha20-Poly1305 encryption: keystream XOR followed by the 16-byte
tag over the ciphertext. -/
def chacha20poly1305Encrypt (key nonce data : Bytes) : Bytes :=
  let ct := List.zipWith (fun a b => a ^^^ b) data (chachaKeystream key nonce data.length)
  ct ++ poly1305Mac (polyKeyGen key nonce) (macData ct)

/-- ChaCha20-Poly1305 decryption: tag verification then keystream XOR;
an authentication failure yields no plaintext at all. -/
def chacha20poly1305Decrypt (key nonce ct : Bytes) : Option Bytes :=
  if ct.length < 16 then none
  else
    let body := ct.take (ct.length - 16)
    let tag := ct.drop (ct.length - 16)
    if poly1305Mac (polyKeyGen key nonce) (macData body) = tag then
      some (List.zipWith (fun a b => a ^^^ b) body (chachaKeystream key nonce body.length))
    else none

/- ## The wire envelope of crypto.rs. -/

/-- encrypt_and_encode (crypto.rs lines 48-56): one version byte 0, the
12-byte nonce, then the ciphertext, all base64 encoded.  The fresh
OsRng nonce of the source is an explicit argument here. -/
def encrypt_and_encode (key nonce data : Bytes) : String :=
  base64Encode (0 :: (nonce ++ chacha20poly1305Encrypt key nonce data))

/-- decode_decrypt (crypto.rs lines 61-66): base64 decode, then slice
the nonce out of bytes 1..13 and decrypt the rest.  The source slices
decoded[1..13] without a bounds check, so a decoded buffer shorter than
13 bytes is a panic, not an error; a key whose length is not 32 panics
inside new_from_slice(...).expect("correct key"). -/
def decode_decrypt (key : Bytes) (data : String) : PanicOr (Except Unit Bytes) :=
  match base64Decode data with
  | none => .val (.error ())
  | some decoded =>
    if key.length ≠ 32 then .panic
    else if decoded.length < 13 then .panic
    else
      match chacha20poly1305Decrypt key ((decoded.drop 1).take 12) (decoded.drop 13) with
      | some pt => .val (.ok pt)
      | none => .val (.error ())

/- ## SHA-256 (FIPS 180-4), used for topic hashing, HKDF and HMAC.
Modelled from the spec: the sha2 / hkdf crates are external
dependencies; the spec fixes the algorithms. -/

/-- Rotation of a 32-bit word to the right by n. -/
def rotr32 (x n : Nat) : Nat := (x >>> n) ||| w32 (x <<< (32 - n))

/-- The 64 SHA-256 round constants of FIPS 180-4, written in decimal. -/
def shaK : List Nat :=
  [1116352408, 1899447441, 3049323471, 3921009573, 961987163,
   1508970993, 2453635748, 2870763221, 3624381080, 310598401,
   607225278, 1426881987, 1925078388, 2162078206, 2614888103,
   3248222580, 3835390401, 4022224774, 264347078, 604807628,
   770255983, 1249150122, 1555081692, 1996064986, 2554220882,
   2821834349, 2952996808, 3210313671, 3336571891, 3584528711,
   113926993, 338241895, 666307205, 773529912, 1294757372,
   1396182291, 1695183700, 1986661051, 2177026350, 2456956037,
   2730485921, 2820302411, 3259730800, 3345764771, 3516065817,
   3600352804, 4094571909, 275423344, 430227734, 506948616,
   659060556, 883997877, 958139571, 1322822218, 1537002063,
   1747873779, 1955562222, 2024104815, 2227730452, 2361852424,
   2428436474, 2756734187, 3204031479, 3329325298]

/-- Big-endian 32-bit words from a byte buffer, four bytes at a time. -/
def bytesToWordsBE : Bytes → List Nat
  | b0 :: b1 :: b2 :: b3 :: rest =>
    (b0 * 16777216 + b1 * 65536 + b2 * 256 + b3) :: bytesToWordsBE rest
  | _ => []

/-- Big-endian serialization of a 32-bit word. -/
def wordBE4 (w : Nat) : Bytes := [w / 16777216 % 256, w / 65536 % 256, w / 256 % 256, w % 256]

/-- SHA-256 padding: a 0x80 byte, zeros, and the 8-byte big-endian bit
length, to a multiple of 64 bytes. -/
def shaPad (msg : Bytes) : Bytes :=
  msg ++ 128 :: (List.replicate ((64 - (msg.length + 9) % 64) % 64) 0 ++
    (natToLE 8 (8 * msg.length)).reverse)

/-- Extension of the 16 block words to the 64-word message schedule. -/
def shaSchedule (ws : List Nat) : List Nat :=
  (List.range 48).foldl (fun w i =>
    let a := w.getD (i + 14) 0
    let b := w.getD (i + 9) 0
    let c := w.getD (i + 1) 0
    let d := w.getD i 0
    let s0 := rotr32 c 7 ^^^ rotr32 c 18 ^^^ (c >>> 3)
    let s1 := rotr32 a 17 ^^^ rotr32 a 19 ^^^ (a >>> 10)
    w ++ [w32 (s1 + b + s0 + d)]) ws

/-- The eight 32-bit words of a SHA-256 state. -/
abbrev Sha8 := Nat × Nat × Nat × Nat × Nat × Nat × Nat × Nat

/-- One SHA-256 round. -/
def shaCompressStep : Sha8 → Nat × Nat → Sha8
  | (a, b, c, d, e, f, g, h), (kw, w) =>
    let s1 := rotr32 e 6 ^^^ rotr32 e 11 ^^^ rotr32 e 25
    let ch := (e &&& f) ^^^ ((4294967295 ^^^ e) &&& g)
    let t1 := w32 (h + s1 + ch + kw + w)
    let s0 := rotr32 a 2 ^^^ rotr32 a 13 ^^^ rotr32 a 22
    let mj := (a &&& b) ^^^ (a &&& c) ^^^ (b &&& c)
    let t2 := w32 (s0 + mj)
    (w32 (t1 + t2), a, b, c, w32 (d + t1), e, f, g)

/-- SHA-256 compression of one 64-byte block into the running state. -/
def shaCompress (st : Sha8) (block : Bytes) : Sha8 :=
  let r := (shaK.zip (shaSchedule (bytesToWordsBE block))).foldl shaCompressStep st
  match st, r with
  | (a, b, c, d, e, f, g, h), (a', b', c', d', e', f', g', h') =>
    (w32 (a + a'), w32 (b + b'), w32 (c + c'), w32 (d + d'),
     w32 (e + e'), w32 (f + f'), w32 (g + g'), w32 (h + h'))

/-- Splitting of the padded message into 64-byte blocks (the fuel is an
upper bound on the number of blocks; message length suffices). -/
def chunks64 : Nat → Bytes → List Bytes
  | 0, _ => []
  | _, [] => []
  | fuel + 1, l => l.take 64 :: chunks64 fuel (l.drop 64)

/-- The SHA-256 digest of a byte buffer. -/
def sha256 (msg : Bytes) : Bytes :=
  let padded := shaPad msg
  match (chunks64 padded.length padded).foldl shaCompress
      (1779033703, 3144134277, 1013904242, 2773480762,
       1359893119, 2600822924, 528734635, 1541459225) with
  | (a, b, c, d, e, f, g, h) => [a, b, c, d, e, f, g, h].flatMap wordBE4

/-- HMAC-SHA256 for keys of at most 64 bytes (the only case used here). -/
def hmacSha256 (key msg : Bytes) : Bytes :=
  let k64 := key ++ List.replicate (64 - key.length) 0
  sha256 (k64.map (fun b => b ^^^ 92) ++ sha256 (k64.map (fun b => b ^^^ 54) ++ msg))

/-- HKDF-SHA256 with no salt and empty info, expanded to 32 bytes:
extract with a zero salt, then a single expand round over [0x01]. -/
def hkdfSha256Expand32 (ikm : Bytes) : Bytes :=
  hmacSha256 (hmacSha256 (List.replicate 32 0) ikm) [1]

/- ## X25519 (RFC 7748), the Diffie-Hellman of derive_symkey_topic.
Modelled from the spec: the x25519-dalek crate is an external
dependency; the spec fixes the algorithm. -/

/-- The field prime 2^255 - 19. -/
def p25519 : Nat := 2 ^ 255 - 19

def fadd (a b : Nat) : Nat := (a + b) % p25519
def fsub (a b : Nat) : Nat := (a + (p25519 - b % p25519)) % p25519
def fmul (a b : Nat) : Nat := a * b % p25519

/-- Binary modular exponentiation (structural on an explicit fuel that
bounds the number of halvings of the exponent). -/
def powModAux : Nat → Nat → Nat → Nat → Nat
  | 0, _, _, m => 1 % m
  | fuel + 1, b, e, m =>
    if e = 0 then 1 % m
    else
      let r := powModAux fuel (b * b % m) (e / 2) m
      if e % 2 = 1 then r * b % m else r

/-- Field inversion by Fermat: z^(p-2) mod p. -/
def finv25519 (z : Nat) : Nat := powModAux 300 z (p25519 - 2) p25519

/-- One step of the Montgomery ladder (RFC 7748 section 5). -/
def ladderStep (x1 : Nat) : Nat × Nat × Nat × Nat → Nat × Nat × Nat × Nat
  | (x2, z2, x3, z3) =>
    let a := fadd x2 z2
    let aa := fmul a a
    let b := fsub x2 z2
    let bb := fmul b b
    let e := fsub aa bb
    let c := fadd x3 z3
    let d := fsub x3 z3
    let da := fmul d a
    let cb := fmul c b
    (fmul aa bb,
     fmul e (fadd aa (fmul 121665 e)),
     fmul (fadd da cb) (fadd da cb),
     fmul x1 (fmul (fsub da cb) (fsub da cb)))

/-- The X25519 scalar multiplication on u-coordinates: the Montgomery
ladder over the 255 scalar bits, with a conditional swap driven by the
running bit, then the projective-to-affine division. -/
def x25519 (k u : Nat) : Nat :=
  let x1 := u % p25519
  match (List.range 255).foldr (fun t st =>
      match st with
      | (x2, z2, x3, z3, swap) =>
        let kt := k / 2 ^ t % 2
        match (if swap ^^^ kt = 1 then (x3, z3, x2, z2) else (x2, z2, x3, z3)) with
        | (a2, b2, a3, b3) =>
          match ladderStep x1 (a2, b2, a3, b3) with
          | (n2, m2, n3, m3) => (n2, m2, n3, m3, kt)) (1, 0, x1, 1, 0) with
  | (x2, z2, x3, z3, swap) =>
    if swap = 1 then fmul x3 (finv25519 z3) else fmul x2 (finv25519 z2)

/-- Clamping of an X25519 scalar: clear the low three bits and bit 255,
set bit 254 (the byte-level clamp of the dalek StaticSecret). -/
def clampScalar (n : Nat) : Nat := (n &&& (2 ^ 255 - 8)) ||| 2 ^ 254

/-- X25519 on 32-byte little-endian buffers: clamp the scalar, mask the
top bit of the peer u-coordinate, run the ladder, serialize. -/
def x25519Bytes (scalar u : Bytes) : Bytes :=
  natToLE 32 (x25519 (clampScalar (leNat scalar)) (leNat u &&& (2 ^ 255 - 1)))

/- ## derive_symkey_topic (crypto.rs lines 16-43). -/

/-- derive_symkey_topic: hex decode the responder public key; on exactly
32 decoded bytes, run X25519 with the local secret, expand the shared
secret through HKDF-SHA256 into the 32-byte symmetric key, and name the
topic as the lowercase hex of SHA-256 of that key; anything else is
None. -/
def derive_symkey_topic (responder_public_key : String) (secret : Bytes) :
    Option (String × Bytes) :=
  match hexDecode responder_public_key with
  | some pk =>
    if pk.length = 32 then
      let sym_key := hkdfSha256Expand32 (x25519Bytes secret pk)
      some (hexEncode (sha256 sym_key), sym_key)
    else none
  | none => none

/-- The fixed dApp secret of the repository's test_derive_topic test. -/
def dappSecret : Bytes :=
  [200, 220, 234, 171, 234, 100, 13, 117, 72, 152, 79, 140, 112, 46, 98, 203,
   46, 82, 181, 132, 149, 158, 189, 217, 78, 224, 11, 145, 159, 235, 198, 115]

/-- The responder public key of the test_derive_topic test. -/
def respPk : String := "f22533e8a398c465569c04c14b853c86b63ad94ffa916861eb138819c8be475f"

/-- The hex decoding of respPk. -/
def respPkBytes : Bytes :=
  [242, 37, 51, 232, 163, 152, 196, 101, 86, 156, 4, 193, 75, 133, 60, 134,
   182, 58, 217, 79, 250, 145, 104, 97, 235, 19, 136, 25, 200, 190, 71, 95]

/-- The X25519 shared secret of dappSecret and respPkBytes. -/
def sharedBytes : Bytes :=
  [234, 118, 86, 86, 210, 169, 1, 132, 184, 179, 66, 104, 147, 183, 157, 238,
   243, 4, 83, 9, 160, 188, 212, 139, 230, 154, 242, 36, 53, 166, 215, 53]

/-- The HKDF-SHA256 expansion of sharedBytes: the derived symmetric key. -/
def symBytes : Bytes :=
  [203, 44, 227, 77, 36, 231, 63, 207, 132, 145, 90, 199, 14, 79, 15, 80,
   44, 82, 222, 198, 204, 169, 123, 190, 251, 34, 21, 158, 18, 248, 117, 103]

/- ## walletconnect.rs: session lifecycle and transaction pipeline.
The Client, the relay, serde and the signing peer are external
collaborators; they appear as type parameters and function arguments,
so every theorem below quantifies over their behavior. -/

/-- Modelled from the spec: the ffi TransactionCommon record (nonce,
gas limit, gas price: decimal strings with empty meaning unset;
chain id: u64; web3api url).  The ffi module itself is outside src/. -/
structure WalletConnectTxCommon where
  gas_limit : String
  gas_price : String
  nonce : String
  chainid : Nat
  web3api_url : String
deriving DecidableEq, Repr

/-- Modelled from the spec: the ffi EIP-155 transaction request
(recipient, value, input data, plus the common fields). -/
structure WalletConnectTxEip155 where
  common : WalletConnectTxCommon
  toAddr : String
  value : String
  data : Bytes
deriving DecidableEq, Repr

/-- The distinguishable failures of the transaction pipeline of
walletconnect.rs: the "no client" guard and the malformed-input
parse errors, by field. -/
inductive TxError where
  | noClient
  | badAddress
  | badNonce
  | badGasLimit
  | badGasPrice
  | badValue
  | badJson
  | remote
deriving DecidableEq, Repr

/-- The fields of an ethers Eip1559TransactionRequest that
walletconnect.rs touches; all optional until filled. -/
structure Eip1559Tx where
  toAddr : Option Bytes
  data : Option Bytes
  gas : Option Nat
  max_priority_fee_per_gas : Option Nat
  max_fee_per_gas : Option Nat
  nonce : Option Nat
  chain_id : Option Nat
  value : Option Nat
deriving DecidableEq, Repr

/-- Eip1559TransactionRequest::new(): every field unset. -/
def emptyEip1559Tx : Eip1559Tx := ⟨none, none, none, none, none, none, none, none⟩

/-- One optional decimal-string field: empty means leave the
transaction unchanged, a parse failure is that field's error. -/
def applyStrField (s : String) (err : TxError) (upd : Nat → Eip1559Tx → Eip1559Tx)
    (tx : Eip1559Tx) : Except TxError Eip1559Tx :=
  if s = "" then .ok tx
  else
    match fromDecStr s with
    | none => .error err
    | some v => .ok (upd v tx)

/-- The transaction construction shared by sign_eip155_transaction_blocking
(walletconnect.rs lines 368-394) and send_eip155_transaction_blocking
(lines 421-448): fill recipient, data, gas, fee, nonce, chain id and
value from the request.  The chain id branch reproduces the source
condition verbatim: Rust's unary ! on the u64 chainid is bitwise NOT,
so the field is applied only when !chainid == 0. -/
def buildEip155Tx (parseAddr : String → Except TxError Bytes)
    (u : WalletConnectTxEip155) : Except TxError Eip1559Tx := do
  let tx := emptyEip1559Tx
  let tx ←
    if u.toAddr = "" then pure tx
    else do
      let a ← parseAddr u.toAddr
      pure { tx with toAddr := some a }
  let tx := if u.data ≠ [] then { tx with data := some u.data } else tx
  let tx ← applyStrField u.common.gas_limit .badGasLimit (fun g t => { t with gas := some g }) tx
  let tx ← applyStrField u.common.gas_price .badGasPrice
    (fun g t => { t with max_priority_fee_per_gas := some g, max_fee_per_gas := some g }) tx
  let tx ← applyStrField u.common.nonce .badNonce (fun n t => { t with nonce := some n }) tx
  let tx := if notU64 u.common.chainid = 0 then { tx with chain_id := some u.common.chainid } else tx
  let tx ← applyStrField u.value .badValue (fun v t => { t with value := some v }) tx
  pure tx

/-- The fields of an ethers TypedTransaction that the contract path of
walletconnect.rs mutates through setters. -/
structure TypedTx where
  nonce : Option Nat
  fromAddr : Option Bytes
  chain_id : Option Nat
  gas : Option Nat
  gas_price : Option Nat
deriving DecidableEq, Repr

/-- The common-field override block shared by get_signed_tx_raw_bytes
(walletconnect.rs lines 465-478) and get_sent_tx_raw_bytes (lines
496-508): parse the nonce unconditionally (a zero result leaves the
nonce as constructed), set the sender, apply the chain id under the
same bitwise-NOT condition as the source, then the optional gas
fields. -/
def applyCommonOverrides (typedtx : TypedTx) (signeraddress : Bytes)
    (common : WalletConnectTxCommon) : Except TxError TypedTx := do
  let mynonce ←
    match fromDecStr common.nonce with
    | none => Except.error TxError.badNonce
    | some v => pure v
  let tx := if mynonce ≠ 0 then { typedtx with nonce := some mynonce } else typedtx
  let tx := { tx with fromAddr := some signeraddress }
  let tx := if notU64 common.chainid = 0 then { tx with chain_id := some common.chainid } else tx
  let tx ←
    if common.gas_limit = "" then pure tx
    else
      match fromDecStr common.gas_limit with
      | none => Except.error TxError.badGasLimit
      | some g => pure { tx with gas := some g }
  let tx ←
    if common.gas_price = "" then pure tx
    else
      match fromDecStr common.gas_price with
      | none => Except.error TxError.badGasPrice
      | some g => pure { tx with gas_price := some g }
  pure tx

/-- The ffi client handle: an optional underlying Client (the runtime
field carries no observable state here). -/
structure WalletconnectClient (C : Type) where
  client : Option C

/-- get_signed_tx_raw_bytes: apply the common overrides, then obtain
the signature over the typed transaction from the peer and return the
raw signed bytes; signing is the external collaborator signTx. -/
def get_signed_tx_raw_bytes {C : Type} (client : C) (signeraddress : Bytes)
    (typedtx : TypedTx) (common : WalletConnectTxCommon)
    (signTx : C → TypedTx → Except TxError Bytes) : Except TxError Bytes := do
  let tx ← applyCommonOverrides typedtx signeraddress common
  signTx client tx

/-- get_sent_tx_raw_bytes: same override block, then broadcast through
the external collaborator sendTx and return the transaction hash bytes. -/
def get_sent_tx_raw_bytes {C : Type} (client : C) (signeraddress : Bytes)
    (typedtx : TypedTx) (common : WalletConnectTxCommon)
    (sendTx : C → TypedTx → Except TxError Bytes) : Except TxError Bytes := do
  let tx ← applyCommonOverrides typedtx signeraddress common
  sendTx client tx

/-- restore_client (walletconnect.rs lines 24-32): an empty string is
rejected before any parsing; a string that does not deserialize into a
SessionInfo is a deserialization error; otherwise the client is
reconstructed from the session by the external Client::restore. -/
def restore_client {C S : Type} (fromJson : String → Option S)
    (clientRestore : S → Except String C) (contents : String) : Except String C :=
  if contents = "" then .error "session info is empty"
  else
    match fromJson contents with
    | none => .error "deserialization error"
    | some session => clientRestore session

/-- sign_personal_blocking (lines 253-270): requires a client, then
delegates to the peer's personal_sign. -/
def WalletconnectClient.sign_personal_blocking {C : Type} (self : WalletconnectClient C)
    (message : String) (address : Bytes)
    (personalSign : C → String → Bytes → Except String Bytes) : Except String Bytes :=
  match self.client with
  | some c => personalSign c message address
  | none => .error "no client"

/-- setup_callback_blocking (lines 272-285): requires a client, then
registers the observer through the external run_callback. -/
def WalletconnectClient.setup_callback_blocking {C K : Type} (self : WalletconnectClient C)
    (usercallback : K) (register : C → K → Except String Unit) : Except String Unit :=
  match self.client with
  | some c => register c usercallback
  | none => .error "no client"

/-- The ffi result of ensure_session: addresses and chain id. -/
structure WalletConnectEnsureSessionResult where
  addresses : List Bytes
  chain_id : Nat
deriving DecidableEq, Repr

/-- ensure_session_blocking (lines 288-312): requires a client, then
waits for the session and repackages the accounts and chain id. -/
def WalletconnectClient.ensure_session_blocking {C : Type} (self : WalletconnectClient C)
    (ensure : C → Except String (List Bytes × Nat)) :
    Except String WalletConnectEnsureSessionResult :=
  match self.client with
  | some c =>
    match ensure c with
    | .error e => .error e
    | .ok r => .ok ⟨r.1, r.2⟩
  | none => .error "no client"

/-- get_connection_string (lines 315-326): requires a client. -/
def WalletconnectClient.get_connection_string {C : Type} (self : WalletconnectClient C)
    (get : C → Except String String) : Except String String :=
  match self.client with
  | some c => get c
  | none => .error "no client"

/-- save_client (lines 329-336): requires a client, then serializes its
session through the external save path. -/
def WalletconnectClient.save_client {C : Type} (self : WalletconnectClient C)
    (save : C → Except String String) : Except String String :=
  match self.client with
  | some c => save c
  | none => .error "no client"

/-- print_uri (lines 339-350): requires a client, then returns the
pairing URI from the session info. -/
def WalletconnectClient.print_uri {C : Type} (self : WalletconnectClient C)
    (uriOf : C → Except String String) : Except String String :=
  match self.client with
  | some c => uriOf c
  | none => .error "no client"

/-- sign_eip155_transaction_blocking (lines 353-403): the "no client"
guard, then the transaction construction, then signing. -/
def WalletconnectClient.sign_eip155_transaction_blocking {C : Type}
    (self : WalletconnectClient C) (userinfo : WalletConnectTxEip155) (address : Bytes)
    (parseAddr : String → Except TxError Bytes)
    (signTx : C → Eip1559Tx → Except TxError Bytes) : Except TxError Bytes :=
  match self.client with
  | none => .error .noClient
  | some c =>
    match buildEip155Tx parseAddr userinfo with
    | .error e => .error e
    | .ok tx => signTx c tx

/-- send_eip155_transaction_blocking (lines 406-456): the "no client"
guard, then the same construction, then broadcast. -/
def WalletconnectClient.send_eip155_transaction_blocking {C : Type}
    (self : WalletconnectClient C) (userinfo : WalletConnectTxEip155) (address : Bytes)
    (parseAddr : String → Except TxError Bytes)
    (sendTx : C → Eip1559Tx → Except TxError Bytes) : Except TxError Bytes :=
  match self.client with
  | none => .error .noClient
  | some c =>
    match buildEip155Tx parseAddr userinfo with
    | .error e => .error e
    | .ok tx => sendTx c tx

/-- sign_transaction (lines 519-546): the "no client" guard, then the
serde parse of the request and signing. -/
def WalletconnectClient.sign_transaction {C : Type} (self : WalletconnectClient C)
    (request : String) (address : Bytes)
    (parseTx : String → Except TxError Eip1559Tx)
    (signTx : C → Eip1559Tx → Except TxError Bytes) : Except TxError Bytes :=
  match self.client with
  | none => .error .noClient
  | some c =>
    match parseTx request with
    | .error e => .error e
    | .ok tx => signTx c tx

/-- send_transaction (lines 548-574): the "no client" guard, then the
serde parse and broadcast. -/
def WalletconnectClient.send_transaction {C : Type} (self : WalletconnectClient C)
    (request : String) (address : Bytes)
    (parseTx : String → Except TxError Eip1559Tx)
    (sendTx : C → Eip1559Tx → Except TxError Bytes) : Except TxError Bytes :=
  match self.client with
  | none => .error .noClient
  | some c =>
    match parseTx request with
    | .error e => .error e
    | .ok tx => sendTx c tx

/-- sign_contract_transaction (lines 576-624): the "no client" guard,
the serde parse of the contract action, the typed-transaction
construction against chain id and web3api url, then the common
overrides and signing of get_signed_tx_raw_bytes. -/
def WalletconnectClient.sign_contract_transaction {C A : Type} (self : WalletconnectClient C)
    (contract_action : String) (common : WalletConnectTxCommon) (address : Bytes)
    (parseAction : String → Except TxError A)
    (constructTx : A → Nat → String → Except TxError TypedTx)
    (signTx : C → TypedTx → Except TxError Bytes) : Except TxError Bytes :=
  match self.client with
  | none => .error .noClient
  | some c =>
    match parseAction contract_action with
    | .error e => .error e
    | .ok action =>
      match constructTx action common.chainid common.web3api_url with
      | .error e => .error e
      | .ok typedtx => get_signed_tx_raw_bytes c address typedtx common signTx

/-- send_contract_transaction (lines 626-674): same shape through
get_sent_tx_raw_bytes. -/
def WalletconnectClient.send_contract_transaction {C A : Type} (self : WalletconnectClient C)
    (contract_action : String) (common : WalletConnectTxCommon) (address : Bytes)
    (parseAction : String → Except TxError A)
    (constructTx : A → Nat → String → Except TxError TypedTx)
    (sendTx : C → TypedTx → Except TxError Bytes) : Except TxError Bytes :=
  match self.client with
  | none => .error .noClient
  | some c =>
    match parseAction contract_action with
    | .error e => .error e
    | .ok action =>
      match constructTx action common.chainid common.web3api_url with
      | .error e => .error e
      | .ok typedtx => get_sent_tx_raw_bytes c address typedtx common sendTx

/-! ## Helper lemmas -/

theorem charSextet_sextetChar : ∀ s < 64, charSextet (sextetChar s) = some s ∧ sextetChar s ≠ '=' := by
  decide

theorem base64EncodeBytes_cons_ne_nil (b : Nat) (l : Bytes) : base64EncodeBytes (b :: l) ≠ [] := by
  match l with
  | [] => simp [base64EncodeBytes]
  | [b2] => simp [base64EncodeBytes]
  | b2 :: b3 :: rest => simp [base64EncodeBytes]

theorem base64_decode_encode : ∀ (l : Bytes), IsBytes l →
    base64DecodeChars (base64EncodeBytes l) = some l
  | [], _ => rfl
  | [b1], h => by
    have hb1 : b1 < 256 := h b1 (by simp)
    have e1 := charSextet_sextetChar (b1 / 4) (by omega)
    have e2 := charSextet_sextetChar (b1 % 4 * 16) (by omega)
    have hm : b1 % 4 * 16 % 16 = 0 := by omega
    simp [base64EncodeBytes, base64DecodeChars, base64DecodeLast, e1.1, e2.1, e1.2, e2.2, hm]
    omega
  | [b1, b2], h => by
    have hb1 : b1 < 256 := h b1 (by simp)
    have hb2 : b2 < 256 := h b2 (by simp)
    have e1 := charSextet_sextetChar (b1 / 4) (by omega)
    have e2 := charSextet_sextetChar (b1 % 4 * 16 + b2 / 16) (by omega)
    have e3 := charSextet_sextetChar (b2 % 16 * 4) (by omega)
    have hm : b2 % 16 * 4 % 4 = 0 := by omega
    simp [base64EncodeBytes, base64DecodeChars, base64DecodeLast, e1.1, e2.1, e3.1,
      e1.2, e2.2, e3.2, hm]
    constructor <;> omega
  | [b1, b2, b3], h => by
    have hb1 : b1 < 256 := h b1 (by simp)
    have hb2 : b2 < 256 := h b2 (by simp)
    have hb3 : b3 < 256 := h b3 (by simp)
    have e1 := charSextet_sextetChar (b1 / 4) (by omega)
    have e2 := charSextet_sextetChar (b1 % 4 * 16 + b2 / 16) (by omega)
    have e3 := charSextet_sextetChar (b2 % 16 * 4 + b3 / 64) (by omega)
    have e4 := charSextet_sextetChar (b3 % 64) (by omega)
    simp [base64EncodeBytes, base64DecodeChars, base64DecodeLast, e1.1, e2.1, e3.1, e4.1,
      e1.2, e2.2, e3.2, e4.2]
    refine ⟨by omega, by omega, by omega⟩
  | b1 :: b2 :: b3 :: b4 :: rest, h => by
    have hb1 : b1 < 256 := h b1 (by simp)
    have hb2 : b2 < 256 := h b2 (by simp)
    have hb3 : b3 < 256 := h b3 (by simp)
    have ih := base64_decode_encode (b4 :: rest) (fun x hx => h x (by simp at hx ⊢; tauto))
    have e1 := charSextet_sextetChar (b1 / 4) (by omega)
    have e2 := charSextet_sextetChar (b1 % 4 * 16 + b2 / 16) (by omega)
    have e3 := charSextet_sextetChar (b2 % 16 * 4 + b3 / 64) (by omega)
    have e4 := charSextet_sextetChar (b3 % 64) (by omega)
    cases henc : base64EncodeBytes (b4 :: rest) with
    | nil => exact absurd henc (base64EncodeBytes_cons_ne_nil b4 rest)
    | cons x xs =>
      rw [henc] at ih
      simp [base64EncodeBytes, base64DecodeChars, henc, e1.1, e2.1, e3.1, e4.1, ih]
      refine ⟨by omega, by omega, by omega⟩

theorem applyQR_length (s : List Nat) (i j k l : Nat) : (applyQR s i j k l).length = s.length := by
  simp [applyQR, qround]

theorem doubleRound_length (s : List Nat) : (doubleRound s).length = s.length := by
  simp [doubleRound, applyQR_length]

theorem chachaRounds_length : ∀ n s, (chachaRounds n s).length = s.length
  | 0, _ => rfl
  | n + 1, s => by rw [chachaRounds, chachaRounds_length n, doubleRound_length]

theorem bytesToWordsLE_length : ∀ l : Bytes, (bytesToWordsLE l).length = l.length / 4
  | [] => rfl
  | [_] => by simp [bytesToWordsLE]
  | [_, _] => by simp [bytesToWordsLE]
  | [_, _, _] => by simp [bytesToWordsLE]
  | b0 :: b1 :: b2 :: b3 :: rest => by
    simp [bytesToWordsLE, bytesToWordsLE_length rest]
    omega

theorem flatMap_wordLE4_length (l : List Nat) : (l.flatMap wordLE4).length = 4 * l.length := by
  induction l with
  | nil => rfl
  | cons x xs ih => simp [List.flatMap_cons, ih, wordLE4]; omega

theorem chachaBlock_length (key nonce : Bytes) (c : Nat)
    (hk : key.length = 32) (hn : nonce.length = 12) :
    (chachaBlock key nonce c).length = 64 := by
  simp only [chachaBlock, flatMap_wordLE4_length, List.length_zipWith, chachaRounds_length]
  simp [chachaState0, bytesToWordsLE_length, hk, hn]

theorem chachaBlocksFrom_length (key nonce : Bytes) (hk : key.length = 32) (hn : nonce.length = 12) :
    ∀ n c, (chachaBlocksFrom key nonce c n).length = 64 * n
  | 0, _ => rfl
  | n + 1, c => by
    simp [chachaBlocksFrom, chachaBlock_length key nonce c hk hn,
      chachaBlocksFrom_length key nonce hk hn n (c + 1)]
    omega

theorem chachaKeystream_length (key nonce : Bytes) (n : Nat)
    (hk : key.length = 32) (hn : nonce.length = 12) :
    (chachaKeystream key nonce n).length = n := by
  simp [chachaKeystream, chachaBlocksFrom_length key nonce hk hn]
  omega

theorem wordLE4_bytes (w : Nat) : IsBytes (wordLE4 w) := by
  intro b hb
  simp [wordLE4] at hb
  rcases hb with h | h | h | h <;> omega

theorem chachaBlock_bytes (key nonce : Bytes) (c : Nat) : IsBytes (chachaBlock key nonce c) := by
  intro b hb
  simp [chachaBlock, List.mem_flatMap] at hb
  obtain ⟨w, _, hw⟩ := hb
  exact wordLE4_bytes w b hw

theorem chachaBlocksFrom_bytes (key nonce : Bytes) :
    ∀ n c, IsBytes (chachaBlocksFrom key nonce c n)
  | 0, _ => by intro b hb; simp [chachaBlocksFrom] at hb
  | n + 1, c => by
    intro b hb
    simp [chachaBlocksFrom] at hb
    rcases hb with h | h
    · exact chachaBlock_bytes key nonce c b h
    · exact chachaBlocksFrom_bytes key nonce n (c + 1) b h

theorem chachaKeystream_bytes (key nonce : Bytes) (n : Nat) : IsBytes (chachaKeystream key nonce n) :=
  fun b hb => chachaBlocksFrom_bytes key nonce _ _ b (List.mem_of_mem_take hb)

theorem natToLE_bytes : ∀ k n, IsBytes (natToLE k n)
  | 0, _ => by intro b hb; simp [natToLE] at hb
  | k + 1, n => by
    intro b hb
    simp [natToLE] at hb
    rcases hb with h | h
    · omega
    · exact natToLE_bytes k (n / 256) b h

theorem poly1305Mac_bytes (key msg : Bytes) : IsBytes (poly1305Mac key msg) :=
  natToLE_bytes 16 _

theorem poly1305Mac_length (key msg : Bytes) : (poly1305Mac key msg).length = 16 := by
  simp [poly1305Mac]
  rfl

theorem zipWith_xor_cancel : ∀ (d ks : Bytes), d.length ≤ ks.length →
    List.zipWith (fun a b => a ^^^ b) (List.zipWith (fun a b => a ^^^ b) d ks) ks = d
  | [], _, _ => by simp
  | _ :: _, [], h => by simp at h
  | d1 :: ds, k1 :: ksr, h => by
    simp only [List.zipWith_cons_cons, List.cons.injEq]
    refine ⟨?_, zipWith_xor_cancel ds ksr (by simpa using h)⟩
    rw [Nat.xor_assoc, Nat.xor_self, Nat.xor_zero]

theorem zipWith_xor_bytes : ∀ (d ks : Bytes), IsBytes d → IsBytes ks →
    IsBytes (List.zipWith (fun a b => a ^^^ b) d ks)
  | [], _, _, _ => by intro b hb; simp at hb
  | _ :: _, [], _, _ => by intro b hb; simp at hb
  | d1 :: ds, k1 :: ksr, hd, hks => by
    intro b hb
    simp only [List.zipWith_cons_cons, List.mem_cons] at hb
    rcases hb with h | h
    · subst h
      have h1 : d1 < 2 ^ 8 := hd d1 (by simp)
      have h2 : k1 < 2 ^ 8 := hks k1 (by simp)
      exact Nat.xor_lt_two_pow h1 h2
    · exact zipWith_xor_bytes ds ksr (fun x hx => hd x (by simp [hx]))
        (fun x hx => hks x (by simp [hx])) b h

theorem chacha20poly1305Encrypt_length (key nonce data : Bytes)
    (hk : key.length = 32) (hn : nonce.length = 12) :
    (chacha20poly1305Encrypt key nonce data).length = data.length + 16 := by
  unfold chacha20poly1305Encrypt
  rw [List.length_append, List.length_zipWith,
    chachaKeystream_length key nonce data.length hk hn, poly1305Mac_length]
  omega

theorem chacha20poly1305Encrypt_bytes (key nonce data : Bytes) (hd : IsBytes data) :
    IsBytes (chacha20poly1305Encrypt key nonce data) := by
  intro b hb
  unfold chacha20poly1305Encrypt at hb
  rw [List.mem_append] at hb
  rcases hb with h | h
  · exact zipWith_xor_bytes data _ hd (chachaKeystream_bytes key nonce data.length) b h
  · exact poly1305Mac_bytes _ _ b h

theorem chacha20poly1305_roundtrip (key nonce data : Bytes)
    (hk : key.length = 32) (hn : nonce.length = 12) :
    chacha20poly1305Decrypt key nonce (chacha20poly1305Encrypt key nonce data) = some data := by
  unfold chacha20poly1305Encrypt chacha20poly1305Decrypt
  set ks := chachaKeystream key nonce data.length with hks
  set ct := List.zipWith (fun a b => a ^^^ b) data ks with hct
  set tag := poly1305Mac (polyKeyGen key nonce) (macData ct) with htag
  have hksl : ks.length = data.length := chachaKeystream_length key nonce data.length hk hn
  have hctl : ct.length = data.length := by
    rw [hct, List.length_zipWith, hksl]; omega
  have htagl : tag.length = 16 := poly1305Mac_length _ _
  have hlen : (ct ++ tag).length = data.length + 16 := by
    rw [List.length_append, hctl, htagl]
  have h1 : ¬ (ct ++ tag).length < 16 := by omega
  rw [if_neg h1]
  have h2 : (ct ++ tag).length - 16 = ct.length := by omega
  rw [h2, List.take_left, List.drop_left, if_pos rfl, hctl, hct]
  rw [zipWith_xor_cancel data ks (by omega)]

theorem envelope_bytes (key nonce data : Bytes) (hnb : IsBytes nonce) (hd : IsBytes data) :
    IsBytes (0 :: (nonce ++ chacha20poly1305Encrypt key nonce data)) := by
  intro b hb
  simp only [List.mem_cons, List.mem_append] at hb
  rcases hb with h | h | h
  · omega
  · exact hnb b h
  · exact chacha20poly1305Encrypt_bytes key nonce data hd b h

theorem decode_decrypt_of_decoded (key : Bytes) (s : String) (decoded : Bytes)
    (hdec : base64Decode s = some decoded) (hkl : key.length = 32)
    (h13 : ¬ decoded.length < 13) :
    decode_decrypt key s =
      match chacha20poly1305Decrypt key ((decoded.drop 1).take 12) (decoded.drop 13) with
      | some pt => PanicOr.val (Except.ok pt)
      | none => PanicOr.val (Except.error ()) := by
  unfold decode_decrypt
  rw [hdec]
  show (if key.length ≠ 32 then PanicOr.panic
    else if decoded.length < 13 then PanicOr.panic
    else match chacha20poly1305Decrypt key ((decoded.drop 1).take 12) (decoded.drop 13) with
      | some pt => PanicOr.val (Except.ok pt)
      | none => PanicOr.val (Except.error ())) = _
  have hne : ¬ key.length ≠ 32 := by omega
  rw [if_neg hne, if_neg h13]

theorem derive_symkey_topic_eq (pk : String) (secret l : Bytes)
    (h : hexDecode pk = some l) (h32 : l.length = 32) :
    derive_symkey_topic pk secret =
      some (hexEncode (sha256 (hkdfSha256Expand32 (x25519Bytes secret l))),
        hkdfSha256Expand32 (x25519Bytes secret l)) := by
  unfold derive_symkey_topic
  rw [h]
  exact if_pos h32

set_option maxRecDepth 100000 in
theorem hexDecode_respPk : hexDecode respPk = some respPkBytes := by rfl

set_option maxRecDepth 400000 in
theorem x25519_shared : x25519Bytes dappSecret respPkBytes = sharedBytes := by rfl

set_option maxRecDepth 200000 in
theorem hkdf_sym : hkdfSha256Expand32 sharedBytes = symBytes := by rfl

set_option maxRecDepth 200000 in
theorem topic_hash : hexEncode (sha256 symBytes) =
    "1630ba5249b23659ee3d7e5f5561b784710bc50a0ef50869c774c831b68452d0" := by rfl

theorem applyCommonOverrides_empty_nonce (tx : TypedTx) (addr : Bytes)
    (common : WalletConnectTxCommon) (h : common.nonce = "") :
    applyCommonOverrides tx addr common ≠ Except.error TxError.badNonce ∧
    ∀ tx', applyCommonOverrides tx addr common = Except.ok tx' → tx'.nonce = tx.nonce := by
  unfold applyCommonOverrides
  rw [h]
  rw [show fromDecStr "" = some 0 from rfl]
  by_cases hc : notU64 common.chainid = 0 <;>
    by_cases hgl : common.gas_limit = "" <;> by_cases hgp : common.gas_price = "" <;>
    rcases hl : fromDecStr common.gas_limit with _ | g1 <;>
    rcases hp : fromDecStr common.gas_price with _ | g2 <;>
    simp [hc, hgl, hgp, hl, hp, Bind.bind, Except.bind, Pure.pure, Except.pure]

theorem sign_contract_no_badNonce {C A : Type} (self : WalletconnectClient C) (c : C)
    (addr : Bytes) (common : WalletConnectTxCommon) (contract_action : String)
    (parseAction : String → Except TxError A)
    (constructTx : A → Nat → String → Except TxError TypedTx)
    (signTx : C → TypedTx → Except TxError Bytes)
    (hclient : self.client = some c)
    (hact : ∀ s, parseAction s ≠ Except.error TxError.badNonce)
    (hcon : ∀ a n u, constructTx a n u ≠ Except.error TxError.badNonce)
    (hsig : ∀ c t, signTx c t ≠ Except.error TxError.badNonce)
    (hnonce : common.nonce = "") :
    self.sign_contract_transaction contract_action common addr parseAction constructTx signTx ≠
      Except.error TxError.badNonce := by
  intro hco
  unfold WalletconnectClient.sign_contract_transaction at hco
  rw [hclient] at hco
  cases hpa : parseAction contract_action with
  | error e =>
    rw [hpa] at hco; simp at hco; exact hact _ (hco ▸ hpa)
  | ok a =>
    rw [hpa] at hco; simp at hco
    cases hct : constructTx a common.chainid common.web3api_url with
    | error e =>
      rw [hct] at hco; simp at hco; exact hcon _ _ _ (hco ▸ hct)
    | ok ttx =>
      rw [hct] at hco; simp at hco
      unfold get_signed_tx_raw_bytes at hco
      cases hap : applyCommonOverrides ttx addr common with
      | error e =>
        rw [hap] at hco; simp [Bind.bind, Except.bind] at hco
        exact (applyCommonOverrides_empty_nonce ttx addr common hnonce).1 (hco ▸ hap)
      | ok t2 =>
        rw [hap] at hco; simp [Bind.bind, Except.bind] at hco
        exact hsig c t2 hco

theorem send_contract_no_badNonce {C A : Type} (self : WalletconnectClient C) (c : C)
    (addr : Bytes) (common : WalletConnectTxCommon) (contract_action : String)
    (parseAction : String → Except TxError A)
    (constructTx : A → Nat → String → Except TxError TypedTx)
    (sendTx : C → TypedTx → Except TxError Bytes)
    (hclient : self.client = some c)
    (hact : ∀ s, parseAction s ≠ Except.error TxError.badNonce)
    (hcon : ∀ a n u, constructTx a n u ≠ Except.error TxError.badNonce)
    (hsend : ∀ c t, sendTx c t ≠ Except.error TxError.badNonce)
    (hnonce : common.nonce = "") :
    self.send_contract_transaction contract_action common addr parseAction constructTx sendTx ≠
      Except.error TxError.badNonce := by
  intro hco
  unfold WalletconnectClient.send_contract_transaction at hco
  rw [hclient] at hco
  cases hpa : parseAction contract_action with
  | error e =>
    rw [hpa] at hco; simp at hco; exact hact _ (hco ▸ hpa)
  | ok a =>
    rw [hpa] at hco; simp at hco
    cases hct : constructTx a common.chainid common.web3api_url with
    | error e =>
      rw [hct] at hco; simp at hco; exact hcon _ _ _ (hco ▸ hct)
    | ok ttx =>
      rw [hct] at hco; simp at hco
      unfold get_sent_tx_raw_bytes at hco
      cases hap : applyCommonOverrides ttx addr common with
      | error e =>
        rw [hap] at hco; simp [Bind.bind, Except.bind] at hco
        exact (applyCommonOverrides_empty_nonce ttx addr common hnonce).1 (hco ▸ hap)
      | ok t2 =>
        rw [hap] at hco; simp [Bind.bind, Except.bind] at hco
        exact hsend c t2 hco

/-! ## Claim theorems -/

/-- C1: the claim says decode_decrypt fails cleanly (recoverable error,
no crash) on every input whose base64 decoding is shorter than 13
bytes, because the decoded buffer is bounds-checked before slicing.
The code has no such bounds check: slicing decoded[1..13] panics.  This
theorem evaluates the code at two such inputs — the empty buffer
(base64 "") and a one-byte buffer (base64 "AA==") — and both panic
under a well-formed 32-byte key, contradicting the claim. -/
theorem C1_short_input_panics :
    decode_decrypt (List.replicate 32 0) "" = PanicOr.panic ∧
    decode_decrypt (List.replicate 32 0) "AA==" = PanicOr.panic :=
  ⟨rfl, rfl⟩

/-- C2: the claim says a non-zero TransactionCommon chain id is applied
to the transaction before signing or sending, and only chain id 0
leaves it unset.  The source condition !chainid == 0 applies Rust's
bitwise NOT to the u64 chain id, so the chain id is applied only when
chainid == 2^64 - 1.  At the failing input chainid = 25, both the
common-override path and the EIP-155 construction path leave the
transaction's chain id unset; the third conjunct shows that the
all-ones chain id is the only value the code applies. -/
theorem C2_chain_id_not_applied :
    (applyCommonOverrides ⟨none, none, none, none, none⟩ [] ⟨"", "", "", 25, ""⟩ =
      Except.ok ⟨none, some [], none, none, none⟩) ∧
    (buildEip155Tx (fun _ => Except.error TxError.badAddress) ⟨⟨"", "", "", 25, ""⟩, "", "", []⟩ =
      Except.ok emptyEip1559Tx) ∧
    (applyCommonOverrides ⟨none, none, none, none, none⟩ []
        ⟨"", "", "", 18446744073709551615, ""⟩ =
      Except.ok ⟨none, some [], some 18446744073709551615, none, none⟩) :=
  ⟨rfl, rfl, rfl⟩

/-- C3: for every byte sequence data and every valid 32-byte key (and
every well-formed 12-byte nonce drawn by the encryptor), decoding and
decrypting the string produced by encrypt_and_encode succeeds and
returns exactly the original data. -/
theorem C3_round_trip (key nonce data : Bytes)
    (hk : key.length = 32) (hn : nonce.length = 12)
    (hnb : IsBytes nonce) (hd : IsBytes data) :
    decode_decrypt key (encrypt_and_encode key nonce data) = PanicOr.val (Except.ok data) := by
  set ct := chacha20poly1305Encrypt key nonce data with hct
  have hctl : ct.length = data.length + 16 :=
    chacha20poly1305Encrypt_length key nonce data hk hn
  have hdec : base64Decode (encrypt_and_encode key nonce data) = some (0 :: (nonce ++ ct)) := by
    show base64DecodeChars (base64EncodeBytes (0 :: (nonce ++ ct))) = _
    exact base64_decode_encode _ (envelope_bytes key nonce data hnb hd)
  have hel : (0 :: (nonce ++ ct)).length = 13 + ct.length := by
    simp [hn]; omega
  have h13 : ¬ (0 :: (nonce ++ ct)).length < 13 := by omega
  rw [decode_decrypt_of_decoded key _ _ hdec hk h13]
  have hdrop1 : (0 :: (nonce ++ ct)).drop 1 = nonce ++ ct := by simp
  have htake : (nonce ++ ct).take 12 = nonce := List.take_left' hn
  have hdrop13 : (0 :: (nonce ++ ct)).drop 13 = ct := by
    show (nonce ++ ct).drop 12 = ct
    exact List.drop_left' hn
  rw [hdrop1, htake, hdrop13, hct,
    chacha20poly1305_roundtrip key nonce data hk hn]

/-- Witness for C3 at the zero key, the zero nonce and data [1, 2, 3]. -/
theorem C3_round_trip_witness :
    decode_decrypt (List.replicate 32 0)
      (encrypt_and_encode (List.replicate 32 0) (List.replicate 12 0) [1, 2, 3]) =
      PanicOr.val (Except.ok [1, 2, 3]) :=
  C3_round_trip (List.replicate 32 0) (List.replicate 12 0) [1, 2, 3]
    (by simp) (by simp) (by decide) (by decide)

/-- C4: in the contract sign/send pipeline an empty nonce string is
treated as unset: parsing the empty string yields zero, the zero value
leaves the constructed transaction's nonce untouched, and neither
sign_contract_transaction nor send_contract_transaction can fail with
the bad-nonce error when the nonce is empty (given that none of the
external collaborators produces that error themselves).  Conversely a
nonce string that does not parse as a decimal integer — necessarily a
non-empty one — makes both get_signed_tx_raw_bytes and
get_sent_tx_raw_bytes fail with exactly the bad-nonce error. -/
theorem C4_empty_nonce_unset {C A : Type} (self : WalletconnectClient C) (c : C)
    (addr : Bytes) (tx : TypedTx) (common : WalletConnectTxCommon) (contract_action : String)
    (parseAction : String → Except TxError A)
    (constructTx : A → Nat → String → Except TxError TypedTx)
    (signTx sendTx : C → TypedTx → Except TxError Bytes)
    (hclient : self.client = some c)
    (hact : ∀ s, parseAction s ≠ Except.error TxError.badNonce)
    (hcon : ∀ a n u, constructTx a n u ≠ Except.error TxError.badNonce)
    (hsig : ∀ c t, signTx c t ≠ Except.error TxError.badNonce)
    (hsend : ∀ c t, sendTx c t ≠ Except.error TxError.badNonce) :
    (common.nonce = "" →
      self.sign_contract_transaction contract_action common addr parseAction constructTx signTx ≠
        Except.error TxError.badNonce ∧
      self.send_contract_transaction contract_action common addr parseAction constructTx sendTx ≠
        Except.error TxError.badNonce ∧
      ∀ tx', applyCommonOverrides tx addr common = Except.ok tx' → tx'.nonce = tx.nonce) ∧
    (fromDecStr common.nonce = none →
      common.nonce ≠ "" ∧
      get_signed_tx_raw_bytes c addr tx common signTx = Except.error TxError.badNonce ∧
      get_sent_tx_raw_bytes c addr tx common sendTx = Except.error TxError.badNonce) := by
  constructor
  · intro hnonce
    exact ⟨sign_contract_no_badNonce self c addr common contract_action parseAction constructTx
        signTx hclient hact hcon hsig hnonce,
      send_contract_no_badNonce self c addr common contract_action parseAction constructTx
        sendTx hclient hact hcon hsend hnonce,
      (applyCommonOverrides_empty_nonce tx addr common hnonce).2⟩
  · intro hn
    have hne : common.nonce ≠ "" := by
      intro he; rw [he] at hn
      exact Option.noConfusion (hn.symm.trans (rfl : fromDecStr "" = some 0))
    refine ⟨hne, ?_, ?_⟩ <;>
      simp [get_signed_tx_raw_bytes, get_sent_tx_raw_bytes, applyCommonOverrides, hn,
        Bind.bind, Except.bind]

/-- Witness for C4: with an empty nonce the contract signing path does
not produce the bad-nonce error. -/
theorem C4_empty_nonce_unset_witness :
    WalletconnectClient.sign_contract_transaction (⟨some ()⟩ : WalletconnectClient Unit) "a"
      ⟨"", "", "", 0, ""⟩ []
      (fun _ => (Except.error TxError.badJson : Except TxError Unit))
      (fun _ _ _ => Except.ok ⟨none, none, none, none, none⟩)
      (fun _ _ => Except.ok []) ≠ Except.error TxError.badNonce := by
  have h := C4_empty_nonce_unset (⟨some ()⟩ : WalletconnectClient Unit) () []
    ⟨none, none, none, none, none⟩ ⟨"", "", "", 0, ""⟩ "a"
    (fun _ => (Except.error TxError.badJson : Except TxError Unit))
    (fun _ _ _ => Except.ok ⟨none, none, none, none, none⟩)
    (fun _ _ => Except.ok []) (fun _ _ => Except.ok []) rfl
    (fun _ h => by simp at h) (fun _ _ _ h => by simp at h)
    (fun _ _ h => by simp at h) (fun _ _ h => by simp at h)
  exact (h.1 rfl).1

/-- C5: on the fixed 32-byte dApp secret and the fixed responder public
key of the repository's test vector, derive_symkey_topic returns some
pair whose topic string is exactly
1630ba5249b23659ee3d7e5f5561b784710bc50a0ef50869c774c831b68452d0
(X25519, then HKDF-SHA256 with no salt and empty info, then lowercase
hex of SHA-256 of the derived key). -/
theorem C5_topic_determinism :
    (derive_symkey_topic respPk dappSecret).map Prod.fst =
      some "1630ba5249b23659ee3d7e5f5561b784710bc50a0ef50869c774c831b68452d0" := by
  rw [derive_symkey_topic_eq respPk dappSecret respPkBytes hexDecode_respPk (by rfl),
    x25519_shared, hkdf_sym, topic_hash]
  rfl

/-- C6: derive_symkey_topic returns none — never an error value or a
crash, its type has no other failure outcome — whenever the responder
public key is not valid hex or its decoding is not exactly 32 bytes,
and it returns some only when the decoded key is exactly 32 bytes. -/
theorem C6_malformed_peer_key (secret : Bytes) (pk : String) :
    (hexDecode pk = none → derive_symkey_topic pk secret = none) ∧
    (∀ l, hexDecode pk = some l → l.length ≠ 32 → derive_symkey_topic pk secret = none) ∧
    ((derive_symkey_topic pk secret).isSome → ∃ l, hexDecode pk = some l ∧ l.length = 32) := by
  refine ⟨fun h => ?_, fun l h hne => ?_, fun h => ?_⟩
  · simp [derive_symkey_topic, h]
  · simp [derive_symkey_topic, h, hne]
  · unfold derive_symkey_topic at h
    cases hd : hexDecode pk with
    | none => rw [hd] at h; simp at h
    | some l =>
      rw [hd] at h
      by_cases h32 : l.length = 32
      · exact ⟨l, rfl, h32⟩
      · simp [h32] at h

/-- Witness for C6: a non-hex key and a one-byte hex key both yield
none. -/
theorem C6_malformed_peer_key_witness :
    derive_symkey_topic "zz" [] = none ∧ derive_symkey_topic "f2" [] = none :=
  ⟨(C6_malformed_peer_key [] "zz").1 (by rfl),
   (C6_malformed_peer_key [] "f2").2.1 [242] (by rfl) (by decide)⟩

/-- C7: for every valid 32-byte key and 12-byte nonce, the string
returned by encrypt_and_encode is the standard padded base64 encoding
of the buffer version-byte-0 ++ nonce ++ ciphertext, the ciphertext
(with its embedded 16-byte tag) is exactly 16 bytes longer than the
plaintext, and the whole decoded envelope is exactly 29 bytes longer
than the plaintext. -/
theorem C7_wire_envelope (key nonce data : Bytes)
    (hk : key.length = 32) (hn : nonce.length = 12) :
    encrypt_and_encode key nonce data =
      base64Encode (0 :: (nonce ++ chacha20poly1305Encrypt key nonce data)) ∧
    (chacha20poly1305Encrypt key nonce data).length = data.length + 16 ∧
    (0 :: (nonce ++ chacha20poly1305Encrypt key nonce data)).length = data.length + 29 := by
  refine ⟨rfl, chacha20poly1305Encrypt_length key nonce data hk hn, ?_⟩
  simp [hn, chacha20poly1305Encrypt_length key nonce data hk hn]
  omega

/-- Witness for C7 at the zero key, the zero nonce and data [5]. -/
theorem C7_wire_envelope_witness :
    encrypt_and_encode (List.replicate 32 0) (List.replicate 12 0) [5] =
      base64Encode (0 :: (List.replicate 12 0 ++
        chacha20poly1305Encrypt (List.replicate 32 0) (List.replicate 12 0) [5])) ∧
    (chacha20poly1305Encrypt (List.replicate 32 0) (List.replicate 12 0) [5]).length = 1 + 16 ∧
    (0 :: (List.replicate 12 0 ++
      chacha20poly1305Encrypt (List.replicate 32 0) (List.replicate 12 0) [5])).length = 1 + 29 :=
  C7_wire_envelope (List.replicate 32 0) (List.replicate 12 0) [5] (by simp) (by simp)

/-- C8: restore_client fails on the empty string (before any parsing)
and on any string that does not deserialize into a SessionInfo, and it
proceeds to reconstruct a client — handing the parsed session to the
Client restore path — exactly for a non-empty string that
deserializes. -/
theorem C8_restore_client_validation {C S : Type} (fromJson : String → Option S)
    (clientRestore : S → Except String C) (contents : String) :
    (contents = "" →
      restore_client fromJson clientRestore contents = .error "session info is empty") ∧
    (contents ≠ "" → fromJson contents = none →
      restore_client fromJson clientRestore contents = .error "deserialization error") ∧
    (∀ s, contents ≠ "" → fromJson contents = some s →
      restore_client fromJson clientRestore contents = clientRestore s) := by
  refine ⟨fun h => ?_, fun h hn => ?_, fun s h hs => ?_⟩ <;>
    simp [restore_client, *]

/-- Witness for C8: the empty string is rejected. -/
theorem C8_restore_client_validation_witness :
    restore_client (fun _ => (none : Option Unit)) (fun _ => (Except.ok () : Except String Unit))
      "" = .error "session info is empty" :=
  (C8_restore_client_validation (fun _ => (none : Option Unit))
    (fun _ => (Except.ok () : Except String Unit)) "").1 rfl

/-- C10: every public operation of WalletconnectClient — personal sign,
callback setup, session establishment, connection string, session
save, URI printing and all sign/send transaction variants — returns
the no-client error when the client field is none; because the external
collaborator actions are universally quantified function arguments and
the result does not depend on them, no network, signing or
state-mutating action is consulted. -/
theorem C10_no_client_guard {C A K : Type} (self : WalletconnectClient C)
    (h : self.client = none)
    (message : String) (address : Bytes) (userinfo : WalletConnectTxEip155)
    (request contract_action : String) (common : WalletConnectTxCommon) (usercallback : K)
    (personalSign : C → String → Bytes → Except String Bytes)
    (register : C → K → Except String Unit)
    (ensure : C → Except String (List Bytes × Nat))
    (getConn saveFn uriOf : C → Except String String)
    (parseAddr : String → Except TxError Bytes)
    (parseTx : String → Except TxError Eip1559Tx)
    (parseAction : String → Except TxError A)
    (constructTx : A → Nat → String → Except TxError TypedTx)
    (signTx sendTx : C → Eip1559Tx → Except TxError Bytes)
    (signTxT sendTxT : C → TypedTx → Except TxError Bytes) :
    self.sign_personal_blocking message address personalSign = .error "no client" ∧
    self.setup_callback_blocking usercallback register = .error "no client" ∧
    self.ensure_session_blocking ensure = .error "no client" ∧
    self.get_connection_string getConn = .error "no client" ∧
    self.save_client saveFn = .error "no client" ∧
    self.print_uri uriOf = .error "no client" ∧
    self.sign_eip155_transaction_blocking userinfo address parseAddr signTx =
      .error .noClient ∧
    self.send_eip155_transaction_blocking userinfo address parseAddr sendTx =
      .error .noClient ∧
    self.sign_transaction request address parseTx signTx = .error .noClient ∧
    self.send_transaction request address parseTx sendTx = .error .noClient ∧
    self.sign_contract_transaction contract_action common address parseAction constructTx
      signTxT = .error .noClient ∧
    self.send_contract_transaction contract_action common address parseAction constructTx
      sendTxT = .error .noClient := by
  obtain ⟨cl⟩ := self
  cases h
  exact ⟨rfl, rfl, rfl, rfl, rfl, rfl, rfl, rfl, rfl, rfl, rfl, rfl⟩

/-- Witness for C10 on a clientless handle: one string-typed operation
and one transaction-typed operation. -/
theorem C10_no_client_guard_witness :
    WalletconnectClient.sign_personal_blocking (⟨none⟩ : WalletconnectClient Unit) "m" []
      (fun _ _ _ => Except.ok []) = .error "no client" ∧
    WalletconnectClient.sign_contract_transaction (⟨none⟩ : WalletconnectClient Unit) "a"
      ⟨"", "", "", 0, ""⟩ [] (fun _ => (Except.error TxError.badJson : Except TxError Unit))
      (fun _ _ _ => Except.ok ⟨none, none, none, none, none⟩)
      (fun _ _ => Except.ok []) = .error .noClient := by
  have h := C10_no_client_guard (⟨none⟩ : WalletconnectClient Unit) rfl "m" []
    ⟨⟨"", "", "", 0, ""⟩, "", "", []⟩ "r" "a" ⟨"", "", "", 0, ""⟩ ()
    (fun _ _ _ => Except.ok []) (fun _ _ => Except.ok ()) (fun _ => Except.ok ([], 0))
    (fun _ => Except.ok "") (fun _ => Except.ok "") (fun _ => Except.ok "")
    (fun _ => Except.ok []) (fun _ => Except.ok emptyEip1559Tx)
    (fun _ => (Except.error TxError.badJson : Except TxError Unit))
    (fun _ _ _ => Except.ok ⟨none, none, none, none, none⟩)
    (fun _ _ => Except.ok []) (fun _ _ => Except.ok [])
    (fun _ _ => Except.ok []) (fun _ _ => Except.ok [])
  exact ⟨h.1, h.2.2.2.2.2.2.2.2.2.2.1⟩

end PlayCpp
